import Mathlib

/-
Verification of the command-dispatch and capture-serialization subsystem of
the telegram-rpi-camera-bot repository, shallowly embedded in Lean 4.

The embedding follows the Go source:
  - src/main.go           : session pool, processUpdate, processCaptureRequest,
                            the capture channel, the camera lock, constants
  - src/constants.go      : command and message constants
  - src/unnamed/part_003  : captureStillImage (args building and timeout logic)
  - src/unnamed/part_002  : the sqlite photo store (SavePhoto, GetPhotos)

External effects (Telegram transport, the spawned process, sqlite, wall-clock
time) are modelled as explicit oracle inputs, and the sequence of side effects
performed by a handler call is returned as an explicit event trace, so that
lock discipline and effect ordering are visible as data.
-/

namespace RPiCam

/-- Constants from src/main.go: queue capacity and inline-query photo bound. -/
def numQueue : Nat := 4

def numLatestPhotos : Nat := 20

/-- Command strings from src/constants.go. -/
def commandStart : String := "/start"

def commandCapture : String := "/capture"

def commandHelp : String := "/help"

def commandStatus : String := "/status"

def commandCancel : String := "/cancel"

/-- Message strings from src/constants.go. -/
def messageDefault : String := "Input your command:"

def messageUnknownCommand : String := "Unknown command."

/-- Capture binary path and run timeout, from src/unnamed/part_003. -/
def libCameraStillBin : String := "/usr/bin/libcamera-still"

def libCameraStillRunTimeoutSeconds : Nat := 10

/-- The session status enum: only one value exists (statusWaiting). -/
inductive Status where
  | waiting
deriving DecidableEq, Repr

/-- Per-user session record (struct _session in src/main.go). -/
structure Session where
  userID : String
  currentStatus : Status
  lastUpdateID : Int
deriving DecidableEq, Repr

/-- The session pool map, modelled as an association list keyed by user id. -/
def SessionMap : Type := List (String × Session)

/-- Lookup in the session map (Go map read). -/
def lookupSession : List (String × Session) → String → Option Session
  | [], _ => none
  | (k, v) :: rest, id => if k == id then some v else lookupSession rest id

/-- Store into the session map (Go map write): replaces the binding if present. -/
def setSession (st : List (String × Session)) (id : String) (s : Session) :
    List (String × Session) :=
  match st with
  | [] => [(id, s)]
  | (k, v) :: rest =>
      if k == id then (k, s) :: rest else (k, v) :: setSession rest id s

/-- Session initialization from the init function of src/main.go: every
configured id gets a fresh session in status waiting with LastUpdateID -1. -/
def initSessions (availableIds : List String) : List (String × Session) :=
  availableIds.map (fun v => (v, { userID := v, currentStatus := Status.waiting, lastUpdateID := -1 }))

/-- Whitelist membership check (isAvailableID in src/main.go). -/
def isAvailableID (availableIds : List String) (id : String) : Bool :=
  availableIds.any (fun v => v == id)

/-- Message options value: the code builds a fixed reply-markup/parse-mode map
in processUpdate and adds a caption in processCaptureRequest. Tracked as an
opaque-token inductive since the claims never inspect the option values. -/
inductive MsgOptions where
  | standard
  | withCaption (base : MsgOptions) (caption : String)
deriving DecidableEq, Repr

/-- Capture request (struct _captureRequest in src/main.go). Camera params of
the Go map type map[string]interface{} are modelled as the list of entries in
caller-supplied order, each value already rendered to a string (the code
renders values with the %v format verb), absent values as none. -/
structure CaptureRequest where
  userName : String
  chatID : Int
  imageWidth : Nat
  imageHeight : Nat
  cameraParams : List (String × Option String)
  messageOptions : MsgOptions
deriving DecidableEq, Repr

/-- One observable side effect performed by a handler. Lock and channel
operations appear explicitly so lock discipline is provable on the trace. -/
inductive Event where
  | lockAcquire
  | lockRelease
  | sessionMutate (user : String) (lastUpdateID : Int)
  | chatAction
  | sendMessage (chatID : Int) (text : String)
  | enqueue (req : CaptureRequest)
  | logErr (msg : String)
  | camAcquire
  | camRelease
  | captureInvoke (bin : String) (args : List String)
  | sendPhoto (chatID : Int)
  | savePhotoCall (userName fileID caption : String)
deriving DecidableEq, Repr

/-- Runtime-dependent strings consumed by getStatus (uptime and memory usage
are read from the clock and the Go runtime). -/
structure Env where
  uptime : String
  memoryUsage : String
deriving DecidableEq, Repr

/-- getStatus from src/main.go. -/
def getStatus (env : Env) : String :=
  "Uptime: " ++ env.uptime ++ "\nMemory Usage: " ++ env.memoryUsage

/-- getHelp from src/main.go, with the three command placeholders filled in. -/
def getHelp : String :=
  "\nFollowing commands are supported:\n\n*For Raspberry Pi Camera Module*\n\n"
    ++ commandCapture ++ " : capture a still image with *raspistill*\n\n*Others*\n\n"
    ++ commandStatus ++ " : show this bot's status\n"
    ++ commandHelp ++ " : show this help message\n\nhttps://github.com/meinside/telegram-bot-rpi-camera\n"

/-- strings.HasPrefix of Go: p is a prefix of s, checked on the character
lists. -/
def prefixMatch (p s : String) : Bool :=
  p.data.isPrefixOf s.data

/-- The inner classification switch of processUpdate (status waiting case):
first matching prefix wins, in the order start, capture, status, help, then
the unknown fallback. Returns (message, cmd) exactly as the Go switch sets
them. -/
def classify (env : Env) (txt : String) : String × String :=
  if prefixMatch commandStart txt then (messageDefault, commandStart)
  else if prefixMatch commandCapture txt then ("", commandCapture)
  else if prefixMatch commandStatus txt then (getStatus env, commandStatus)
  else if prefixMatch commandHelp txt then (getHelp, commandHelp)
  else if txt.length > 0 then ("*" ++ txt ++ "*: " ++ messageUnknownCommand, "unknown")
  else (messageUnknownCommand, "unknown")

/-- The configuration values processUpdate reads from package globals. -/
structure Config where
  availableIds : List String
  imageWidth : Nat
  imageHeight : Nat
  cameraParams : List (String × Option String)
  isInMaintenance : Bool
  maintenanceMessage : String
deriving DecidableEq, Repr

/-- An inbound Telegram message update, with the fields processUpdate reads. -/
structure Update where
  username : Option String
  firstName : String
  updateID : Int
  chatID : Int
  text : Option String
deriving DecidableEq, Repr

/-- Result of one processUpdate call: the new session pool, the returned bool,
and the trace of side effects in program order. -/
structure UpdateResult where
  pool : List (String × Session)
  result : Bool
  events : List Event
deriving DecidableEq, Repr

/-- processUpdate from src/main.go. sendOk is the oracle for whether
b.SendMessage reports Ok. The pool lock and unlock, the session mutation, the
channel send and the transport calls appear in the trace in source order. -/
def processUpdate (cfg : Config) (env : Env) (st : List (String × Session))
    (u : Update) (sendOk : Bool) : UpdateResult :=
  match u.username with
  | none =>
      { pool := st, result := false,
        events := [Event.logErr ("message - user not allowed (has no username): " ++ u.firstName)] }
  | some userID =>
      if isAvailableID cfg.availableIds userID = false then
        { pool := st, result := false,
          events := [Event.logErr ("message - id not allowed: " ++ userID)] }
      else
        match lookupSession st userID with
        | none =>
            { pool := st, result := false,
              events := [Event.lockAcquire,
                Event.logErr ("session does not exist for id: " ++ userID),
                Event.lockRelease] }
        | some session =>
            if session.lastUpdateID = u.updateID then
              { pool := st, result := false,
                events := [Event.lockAcquire,
                  Event.logErr "duplicated update id", Event.lockRelease] }
            else
              let st1 := setSession st userID
                { userID := session.userID, currentStatus := session.currentStatus,
                  lastUpdateID := u.updateID }
              let txt := match u.text with | some t => t | none => ""
              let mc := match session.currentStatus with
                | Status.waiting => classify env txt
              if mc.1.length > 0 then
                if sendOk then
                  { pool := st1, result := true,
                    events := [Event.lockAcquire, Event.sessionMutate userID u.updateID,
                      Event.chatAction, Event.sendMessage u.chatID mc.1, Event.lockRelease] }
                else
                  { pool := st1, result := false,
                    events := [Event.lockAcquire, Event.sessionMutate userID u.updateID,
                      Event.chatAction, Event.sendMessage u.chatID mc.1,
                      Event.logErr "failed to send message", Event.lockRelease] }
              else
                if cfg.isInMaintenance then
                  if sendOk then
                    { pool := st1, result := true,
                      events := [Event.lockAcquire, Event.sessionMutate userID u.updateID,
                        Event.sendMessage u.chatID cfg.maintenanceMessage, Event.lockRelease] }
                  else
                    { pool := st1, result := false,
                      events := [Event.lockAcquire, Event.sessionMutate userID u.updateID,
                        Event.sendMessage u.chatID cfg.maintenanceMessage,
                        Event.logErr "failed to send maintenance message", Event.lockRelease] }
                else
                  { pool := st1, result := false,
                    events := [Event.lockAcquire, Event.sessionMutate userID u.updateID,
                      Event.enqueue
                        { userName := userID, chatID := u.chatID,
                          imageWidth := cfg.imageWidth, imageHeight := cfg.imageHeight,
                          cameraParams := cfg.cameraParams,
                          messageOptions := MsgOptions.standard },
                      Event.lockRelease] }

/-- A buffered Go channel: a bounded FIFO with fixed capacity. captureChannel
is made with capacity numQueue in the init function of src/main.go. -/
structure Chan (α : Type) where
  capacity : Nat
  items : List α
deriving DecidableEq, Repr

/-- Result of a channel send: either the new channel state, or the producer
blocks (Go channel send on a full buffered channel). -/
inductive SendResult (α : Type) where
  | sent (c : Chan α)
  | blocked
deriving DecidableEq, Repr

/-- Go buffered-channel send semantics: append when the buffer has room,
block otherwise; nothing is dropped or overwritten. -/
def chanSend {α : Type} (c : Chan α) (x : α) : SendResult α :=
  if c.items.length < c.capacity then
    SendResult.sent { capacity := c.capacity, items := c.items ++ [x] }
  else
    SendResult.blocked

/-- Go buffered-channel receive semantics: take the oldest element, or block
(none) on an empty buffer. -/
def chanRecv {α : Type} (c : Chan α) : Option (α × Chan α) :=
  match c.items with
  | [] => none
  | x :: rest => some (x, { capacity := c.capacity, items := rest })

/-- One channel operation, for reasoning about reachable channel states. -/
inductive ChanOp (α : Type) where
  | send (x : α)
  | recv
deriving DecidableEq, Repr

/-- Apply a channel operation; a blocked send and an empty receive leave the
state unchanged (the goroutine just waits). -/
def applyOp {α : Type} (c : Chan α) (op : ChanOp α) : Chan α :=
  match op with
  | ChanOp.send x =>
      match chanSend c x with
      | SendResult.sent c2 => c2
      | SendResult.blocked => c
  | ChanOp.recv =>
      match chanRecv c with
      | some p => p.2
      | none => c

/-- Run a sequence of channel operations. -/
def runOps {α : Type} (c : Chan α) (ops : List (ChanOp α)) : Chan α :=
  ops.foldl applyOp c

/-- captureChannel as made at startup: capacity numQueue, empty. -/
def mkCaptureChannel : Chan CaptureRequest :=
  { capacity := numQueue, items := [] }

/-- Outcome of the spawned capture process, the oracle input to
captureStillImage. completed means cmd.Wait delivered before the timer fired
(exitErr none = nil error); timedOut means the timer fired first, with the
success of the subsequent Process.Kill; startError means cmd.Start failed. -/
inductive ProcOutcome where
  | startError (e : String)
  | completed (stdout : List Nat) (exitErr : Option String)
  | timedOut (killOk : Bool)
deriving DecidableEq, Repr

/-- The loop body of the args-building loop of captureStillImage: append the
flag name, then the value when it is present (args = append(args, k); if
v != nil then args = append(args, fmt.Sprintf(...))). -/
def appendParamArg (args : List String) (kv : String × Option String) : List String :=
  let args2 := args ++ [kv.1]
  match kv.2 with
  | some v => args2 ++ [v]
  | none => args2

/-- The argument-list building of captureStillImage in src/unnamed/part_003:
fixed width/height/encoding/output flags, then the loop over the map entries.
iter is the sequence of map entries in the order Go happens to iterate the
camera-params map. -/
def captureStillImageArgs (width height : Nat)
    (iter : List (String × Option String)) : List String :=
  iter.foldl appendParamArg
    ["--width", toString width, "--height", toString height,
     "--encoding", "jpg", "--output", "-"]

/-- Rendering of camera-param entries as the spec words it in 4.4: each entry
is its flag name optionally followed by its string value. Used to compare the
code's accumulation loop against the spec sentence. -/
def specRenderParams (ps : List (String × Option String)) : List String :=
  ps.flatMap (fun kv => kv.1 :: kv.2.toList)

/-- captureStillImage from src/unnamed/part_003: builds the args, starts the
process, and races completion against the 10s timer. Returns the args handed
to the process together with the Go (bytes, err) result, errors rendered with
the exact fmt.Errorf format strings. -/
def captureStillImage (bin : String) (width height : Nat)
    (iter : List (String × Option String)) (outcome : ProcOutcome) :
    List String × Except String (List Nat) :=
  let args := captureStillImageArgs width height iter
  match outcome with
  | ProcOutcome.startError e => (args, Except.error e)
  | ProcOutcome.completed stdout none => (args, Except.ok stdout)
  | ProcOutcome.completed _ (some e) =>
      (args, Except.error ("Error running " ++ bin ++ ": " ++ e))
  | ProcOutcome.timedOut true =>
      (args, Except.error ("Command timed out: " ++ bin))
  | ProcOutcome.timedOut false =>
      (args, Except.error ("Command timed out, but failed to kill process: " ++ bin))

/-- One row of the photos table of src/unnamed/part_002, with its
autoincrement primary key. -/
structure PhotoRow where
  id : Nat
  userName : String
  fileID : String
  caption : String
deriving DecidableEq, Repr

/-- The local sqlite database: rows in insertion order, plus the next
autoincrement id. -/
structure Database where
  nextID : Nat
  rows : List PhotoRow
deriving DecidableEq, Repr

/-- The empty photos table right after OpenDb creates it. -/
def emptyDb : Database := { nextID := 0, rows := [] }

/-- Outcome of the prepare/exec pair inside SavePhoto. -/
inductive SqlOutcome where
  | ok
  | prepareFail (e : String)
  | execFail (e : String)
deriving DecidableEq, Repr

/-- SavePhoto from src/unnamed/part_002: inserts one row; on failure it only
logs (returned as the log list) and leaves the table unchanged. There is no
return value and no retry in the source. -/
def savePhoto (d : Database) (userName fileID caption : String)
    (outcome : SqlOutcome) : Database × List String :=
  match outcome with
  | SqlOutcome.ok =>
      let row : PhotoRow :=
        { id := d.nextID, userName := userName, fileID := fileID, caption := caption }
      ({ nextID := d.nextID + 1, rows := d.rows ++ [row] }, [])
  | SqlOutcome.prepareFail e =>
      (d, ["*** Failed to prepare a statement: " ++ e])
  | SqlOutcome.execFail e =>
      (d, ["*** Failed to save photo into local database: " ++ e])

/-- Insert one row into a list sorted by descending id (keeps it sorted). -/
def insertDescRow (r : PhotoRow) : List PhotoRow → List PhotoRow
  | [] => [r]
  | s :: rest => if s.id ≤ r.id then r :: s :: rest else s :: insertDescRow r rest

/-- Sort rows by descending id: the order-by-id-desc clause of the GetPhotos
query. -/
def sortByIdDesc : List PhotoRow → List PhotoRow
  | [] => []
  | r :: rest => insertDescRow r (sortByIdDesc rest)

/-- GetPhotos from src/unnamed/part_002: select rows where user_name matches,
order by id desc, limit latestN. -/
def getPhotos (d : Database) (userName : String) (latestN : Nat) : List PhotoRow :=
  (sortByIdDesc (d.rows.filter (fun row => row.userName == userName))).take latestN

/-- Result of b.SendPhoto as seen by processCaptureRequest: Ok with the file
id of the largest photo, or a failure description. -/
inductive SendPhotoResult where
  | ok (fileID : String)
  | failed (description : String)
deriving DecidableEq, Repr

/-- The oracle inputs of one processCaptureRequest call: the spawned process
outcome, the iteration order of the camera-params map, the SendPhoto result,
the formatted capture time, and the sqlite outcome of SavePhoto. -/
structure CaptureOutcome where
  iter : List (String × Option String)
  procOutcome : ProcOutcome
  sendPhotoResult : SendPhotoResult
  caption : String
  sqlOutcome : SqlOutcome
deriving DecidableEq, Repr

/-- Result of one processCaptureRequest call. -/
structure CaptureResult where
  result : Bool
  db : Database
  events : List Event
deriving DecidableEq, Repr

/-- processCaptureRequest from src/main.go: acquires cameraLock (released by
defer on every exit path), sends a chat action, runs the capture, and on
success sends the photo and saves it to the local database; all effects are
returned in the trace in source order. -/
def processCaptureRequest (req : CaptureRequest) (o : CaptureOutcome)
    (db : Database) : CaptureResult :=
  let cap := captureStillImage libCameraStillBin req.imageWidth req.imageHeight
    o.iter o.procOutcome
  match cap.2 with
  | Except.ok _bytes =>
      match o.sendPhotoResult with
      | SendPhotoResult.ok fileID =>
          let saved := savePhoto db req.userName fileID o.caption o.sqlOutcome
          { result := true, db := saved.1,
            events := [Event.camAcquire, Event.chatAction,
              Event.captureInvoke libCameraStillBin cap.1, Event.chatAction,
              Event.sendPhoto req.chatID,
              Event.savePhotoCall req.userName fileID o.caption]
              ++ saved.2.map Event.logErr ++ [Event.camRelease] }
      | SendPhotoResult.failed desc =>
          { result := false, db := db,
            events := [Event.camAcquire, Event.chatAction,
              Event.captureInvoke libCameraStillBin cap.1, Event.chatAction,
              Event.sendPhoto req.chatID,
              Event.logErr ("failed to send photo: " ++ desc),
              Event.sendMessage req.chatID ("failed to send photo: " ++ desc),
              Event.camRelease] }
  | Except.error e =>
      { result := false, db := db,
        events := [Event.camAcquire, Event.chatAction,
          Event.captureInvoke libCameraStillBin cap.1,
          Event.logErr ("image capture failed: " ++ e),
          Event.sendMessage req.chatID ("image capture failed: " ++ e),
          Event.camRelease] }

/-- True when the trace performs a channel enqueue while the session-pool
lock is held (lock depth tracked left to right). -/
def enqueueUnderLock : List Event → Nat → Bool
  | [], _ => false
  | Event.lockAcquire :: rest, d => enqueueUnderLock rest (d + 1)
  | Event.lockRelease :: rest, d => enqueueUnderLock rest (d - 1)
  | Event.enqueue _ :: rest, d => if 0 < d then true else enqueueUnderLock rest d
  | _ :: rest, d => enqueueUnderLock rest d

/-- Counts savePhotoCall events in a trace. -/
def countSaves (t : List Event) : Nat :=
  t.countP (fun e => match e with | Event.savePhotoCall _ _ _ => true | _ => false)

/-- Counts sendMessage events in a trace (user-surfaced error replies). -/
def countSendMessages (t : List Event) : Nat :=
  t.countP (fun e => match e with | Event.sendMessage _ _ => true | _ => false)

/-- Counts sessionMutate events in a trace. -/
def countMutations (t : List Event) : Nat :=
  t.countP (fun e => match e with | Event.sessionMutate _ _ => true | _ => false)

/-- Counts enqueue events in a trace. -/
def countEnqueues (t : List Event) : Nat :=
  t.countP (fun e => match e with | Event.enqueue _ => true | _ => false)

/-- True for a captureInvoke event. -/
def isCaptureInvoke (e : Event) : Bool :=
  match e with | Event.captureInvoke _ _ => true | _ => false

/-- The command set in the fixed priority order of section 4.2 of the spec,
paired with the synchronous reply each command produces. -/
def commandTable (env : Env) : List (String × String) :=
  [(commandStart, messageDefault), (commandCapture, ""),
   (commandStatus, getStatus env), (commandHelp, getHelp)]

/-- Classification as the spec words it: first matching prefix in the
priority list wins; the unknown fallback echoes non-empty text. -/
def firstMatchReply (env : Env) (txt : String) : String × String :=
  match (commandTable env).find? (fun cm => prefixMatch cm.1 txt) with
  | some cm => (cm.2, cm.1)
  | none =>
      if txt.length > 0 then ("*" ++ txt ++ "*: " ++ messageUnknownCommand, "unknown")
      else (messageUnknownCommand, "unknown")

/-- The trace a non-duplicate whitelisted waiting-status update produces when
the transport send succeeds and maintenance is off, as a function of the
classification result: a synchronous reply when the classifier computed a
message, an enqueued capture request otherwise. -/
def dispatchEvents (cfg : Config) (env : Env) (uid : String) (u : Update) : List Event :=
  let txt := match u.text with | some t => t | none => ""
  let mc := classify env txt
  if mc.1.length > 0 then
    [Event.lockAcquire, Event.sessionMutate uid u.updateID, Event.chatAction,
     Event.sendMessage u.chatID mc.1, Event.lockRelease]
  else
    [Event.lockAcquire, Event.sessionMutate uid u.updateID,
     Event.enqueue
       { userName := uid, chatID := u.chatID, imageWidth := cfg.imageWidth,
         imageHeight := cfg.imageHeight, cameraParams := cfg.cameraParams,
         messageOptions := MsgOptions.standard },
     Event.lockRelease]

/-- Database well-formedness maintained by savePhoto from emptyDb: ids are
pairwise distinct and below the next autoincrement value. -/
def dbInv (d : Database) : Prop :=
  (d.rows.map PhotoRow.id).Nodup ∧ ∀ r ∈ d.rows, r.id < d.nextID

/-- Concrete configuration fixture for witnesses and counterexamples. -/
def cfgAlice : Config :=
  { availableIds := ["alice"], imageWidth := 1600, imageHeight := 1200,
    cameraParams := [("--quality", some "90"), ("--hflip", none)],
    isInMaintenance := false,
    maintenanceMessage := "Service is in maintenance now." }

/-- Concrete runtime-environment fixture. -/
def envTest : Env := { uptime := "0 days", memoryUsage := "1 MB" }

/-- Concrete update fixture from user alice. -/
def updAt (i : Int) (t : String) : Update :=
  { username := some "alice", firstName := "Alice", updateID := i, chatID := 99,
    text := some t }

/-- Concrete capture-request fixture. -/
def reqAlice : CaptureRequest :=
  { userName := "alice", chatID := 99, imageWidth := 1600, imageHeight := 1200,
    cameraParams := [], messageOptions := MsgOptions.standard }

/-- The fresh session every whitelisted user gets at startup. -/
def freshSession (uid : String) : Session :=
  { userID := uid, currentStatus := Status.waiting, lastUpdateID := -1 }

/-- True for the camAcquire event. -/
def isCamAcquire (e : Event) : Bool :=
  match e with | Event.camAcquire => true | _ => false

/-- True for the camRelease event. -/
def isCamRelease (e : Event) : Bool :=
  match e with | Event.camRelease => true | _ => false

/-- Last element of a trace. -/
def lastEvent : List Event → Option Event
  | [] => none
  | [e] => some e
  | _ :: e :: rest => lastEvent (e :: rest)

/-- True when the capture process completed within the deadline with a nil
error, i.e. captureStillImage returns the bytes with no error. -/
def captureOK (po : ProcOutcome) : Bool :=
  match po with
  | ProcOutcome.completed _ none => true
  | _ => false

/-- True when b.SendPhoto reported Ok. -/
def sendPhotoOK (r : SendPhotoResult) : Bool :=
  match r with | SendPhotoResult.ok _ => true | _ => false

/-- A two-row database built by two successful savePhoto calls, for concrete
witnesses. -/
def dbSample : Database :=
  (savePhoto (savePhoto emptyDb "alice" "f1" "c1" SqlOutcome.ok).1
    "alice" "f2" "c2" SqlOutcome.ok).1

/-- A concrete capture outcome fixture: process completed with bytes, photo
delivered, database insert succeeded. -/
def outcomeOk : CaptureOutcome :=
  { iter := [], procOutcome := ProcOutcome.completed [1, 2] none,
    sendPhotoResult := SendPhotoResult.ok "file9", caption := "2024-01-01",
    sqlOutcome := SqlOutcome.ok }

/-- Storing a session and reading the same key back gives the stored value. -/
theorem lookupSession_setSession_self (st : List (String × Session)) (id : String)
    (s : Session) : lookupSession (setSession st id s) id = some s := by
  induction st with
  | nil => simp [setSession, lookupSession]
  | cons p rest ih =>
      obtain ⟨k, v⟩ := p
      by_cases h : k = id
      · simp [setSession, lookupSession, h]
      · simp [setSession, lookupSession, h, ih]

/-- Every configured id has a fresh waiting session after init. -/
theorem lookupSession_initSessions (ids : List String) (uid : String) (h : uid ∈ ids) :
    lookupSession (initSessions ids) uid = some (freshSession uid) := by
  induction ids with
  | nil => cases h
  | cons a rest ih =>
      by_cases ha : a = uid
      · subst ha
        simp [initSessions, lookupSession, freshSession]
      · have hmem : uid ∈ rest := by
          cases h with
          | head => exact absurd rfl ha
          | tail _ hm => exact hm
        simpa [initSessions, lookupSession, ha] using ih hmem

/-- A configured id passes the whitelist check. -/
theorem isAvailableID_of_mem (ids : List String) (uid : String) (h : uid ∈ ids) :
    isAvailableID ids uid = true := by
  simp only [isAvailableID, List.any_eq_true]
  exact ⟨uid, h, by simp⟩

/-- A duplicate update id is a no-op: pool unchanged, result false, only the
dedup log between lock and unlock. -/
theorem processUpdate_dup (cfg : Config) (env : Env) (st : List (String × Session))
    (u : Update) (sendOk : Bool) (uid : String) (s : Session)
    (hu : u.username = some uid)
    (hav : isAvailableID cfg.availableIds uid = true)
    (hs : lookupSession st uid = some s)
    (hdup : s.lastUpdateID = u.updateID) :
    processUpdate cfg env st u sendOk =
      { pool := st, result := false,
        events := [Event.lockAcquire, Event.logErr "duplicated update id",
          Event.lockRelease] } := by
  simp [processUpdate, hu, hav, hs, hdup]

/-- A distinct update id overwrites the session's LastUpdateID with the
incoming id, whatever the message text, maintenance flag and send result. -/
theorem processUpdate_pool_of_distinct (cfg : Config) (env : Env)
    (st : List (String × Session)) (u : Update) (sendOk : Bool) (uid : String)
    (s : Session)
    (hu : u.username = some uid)
    (hav : isAvailableID cfg.availableIds uid = true)
    (hs : lookupSession st uid = some s)
    (hne : s.lastUpdateID ≠ u.updateID) :
    (processUpdate cfg env st u sendOk).pool =
      setSession st uid
        { userID := s.userID, currentStatus := s.currentStatus,
          lastUpdateID := u.updateID } := by
  simp only [processUpdate, hu, hav, hs, Bool.true_eq_false, if_false, if_neg hne]
  cases s.currentStatus
  split
  · split <;> rfl
  · split
    · split <;> rfl
    · rfl

/-- C1: for every whitelisted user the recorded last_update_id is overwritten
by each processed distinct update id (which may be smaller than the previous
one), and delivering an update whose id equals the recorded last_update_id is
a no-op: no session mutation, no reply, no enqueue. -/
theorem claim1_lastUpdateID_tracks_distinct_ids (cfg : Config) (env : Env)
    (st : List (String × Session)) (u : Update) (sendOk : Bool) (uid : String)
    (s : Session)
    (hu : u.username = some uid)
    (hav : isAvailableID cfg.availableIds uid = true)
    (hs : lookupSession st uid = some s) :
    (s.lastUpdateID = u.updateID →
      processUpdate cfg env st u sendOk =
        { pool := st, result := false,
          events := [Event.lockAcquire, Event.logErr "duplicated update id",
            Event.lockRelease] })
    ∧ (s.lastUpdateID ≠ u.updateID →
      lookupSession (processUpdate cfg env st u sendOk).pool uid =
        some { userID := s.userID, currentStatus := s.currentStatus,
               lastUpdateID := u.updateID }) := by
  constructor
  · intro hdup
    exact processUpdate_dup cfg env st u sendOk uid s hu hav hs hdup
  · intro hne
    rw [processUpdate_pool_of_distinct cfg env st u sendOk uid s hu hav hs hne]
    exact lookupSession_setSession_self st uid _

/-- C1 witness: processing update id 7 for alice records 7. -/
theorem claim1_witness :
    lookupSession (processUpdate cfgAlice envTest (initSessions ["alice"])
        (updAt 7 "/start") true).pool "alice"
      = some { userID := "alice", currentStatus := Status.waiting, lastUpdateID := 7 } :=
  (claim1_lastUpdateID_tracks_distinct_ids cfgAlice envTest (initSessions ["alice"])
      (updAt 7 "/start") true "alice" (freshSession "alice")
      (by decide) (by decide) (by decide)).2 (by decide)

/-- C1 counterexample: last_update_id is not non-decreasing: alice sends
update id 5 and then update id 3, and the recorded id drops from 5 to 3. -/
theorem claim1_counterexample_lastUpdateID_decreases :
    lookupSession (processUpdate cfgAlice envTest (initSessions ["alice"])
        (updAt 5 "/start") true).pool "alice"
      = some { userID := "alice", currentStatus := Status.waiting, lastUpdateID := 5 }
    ∧ lookupSession (processUpdate cfgAlice envTest
        (processUpdate cfgAlice envTest (initSessions ["alice"]) (updAt 5 "/start") true).pool
        (updAt 3 "/start") true).pool "alice"
      = some { userID := "alice", currentStatus := Status.waiting, lastUpdateID := 3 }
    ∧ (3 : Int) < 5 := by
  decide

/-- C2: evaluated at a whitelisted /capture update with maintenance off, the
trace of processUpdate performs the capture-channel enqueue while the
session-pool lock is held, contradicting the requirement that the critical
section cover only dedup and classification. -/
theorem claim2_enqueue_runs_inside_pool_critical_section :
    enqueueUnderLock
      (processUpdate cfgAlice envTest (initSessions ["alice"]) (updAt 1 "/capture") true).events
      0 = true
    ∧ countEnqueues
        (processUpdate cfgAlice envTest (initSessions ["alice"]) (updAt 1 "/capture") true).events
      = 1 := by
  decide

/-- C10: every whitelisted user's session starts with last_update_id -1, a
first update whose id is -1 is classified as a duplicate and silently dropped
(no state change, no reply, no enqueue), and a first update with any other id
is processed normally (its id is recorded in the session). -/
theorem claim10_fresh_session_treats_minus_one_as_duplicate (cfg : Config)
    (env : Env) (u : Update) (uid : String) (sendOk : Bool)
    (hu : u.username = some uid) (hmem : uid ∈ cfg.availableIds) :
    lookupSession (initSessions cfg.availableIds) uid = some (freshSession uid)
    ∧ (u.updateID = -1 →
      processUpdate cfg env (initSessions cfg.availableIds) u sendOk =
        { pool := initSessions cfg.availableIds, result := false,
          events := [Event.lockAcquire, Event.logErr "duplicated update id",
            Event.lockRelease] })
    ∧ (u.updateID ≠ -1 →
      lookupSession (processUpdate cfg env (initSessions cfg.availableIds) u sendOk).pool uid =
        some { userID := uid, currentStatus := Status.waiting,
               lastUpdateID := u.updateID }) := by
  have hav := isAvailableID_of_mem cfg.availableIds uid hmem
  have hl := lookupSession_initSessions cfg.availableIds uid hmem
  refine ⟨hl, ?_, ?_⟩
  · intro hid
    exact processUpdate_dup cfg env (initSessions cfg.availableIds) u sendOk uid
      (freshSession uid) hu hav hl (by simp [freshSession, hid])
  · intro hid
    rw [processUpdate_pool_of_distinct cfg env (initSessions cfg.availableIds) u sendOk uid
      (freshSession uid) hu hav hl (by simp [freshSession]; exact fun h => hid h.symm)]
    exact lookupSession_setSession_self _ uid _

/-- C10 witness: for alice, the fresh session holds -1; update id -1 is
dropped as a duplicate; update id 7 is processed and recorded. -/
theorem claim10_witness :
    lookupSession (initSessions cfgAlice.availableIds) "alice" = some (freshSession "alice")
    ∧ processUpdate cfgAlice envTest (initSessions cfgAlice.availableIds)
        (updAt (-1) "/start") true =
      { pool := initSessions cfgAlice.availableIds, result := false,
        events := [Event.lockAcquire, Event.logErr "duplicated update id",
          Event.lockRelease] }
    ∧ lookupSession (processUpdate cfgAlice envTest (initSessions cfgAlice.availableIds)
        (updAt 7 "/status") true).pool "alice"
      = some { userID := "alice", currentStatus := Status.waiting, lastUpdateID := 7 } :=
  ⟨(claim10_fresh_session_treats_minus_one_as_duplicate cfgAlice envTest
      (updAt (-1) "/start") "alice" true (by decide) (by decide)).1,
   (claim10_fresh_session_treats_minus_one_as_duplicate cfgAlice envTest
      (updAt (-1) "/start") "alice" true (by decide) (by decide)).2.1 (by decide),
   (claim10_fresh_session_treats_minus_one_as_duplicate cfgAlice envTest
      (updAt 7 "/status") "alice" true (by decide) (by decide)).2.2 (by decide)⟩

/-- For a non-duplicate whitelisted update with maintenance off and a
successful send, the trace is determined by the classification of the text:
a synchronous reply for start/status/help/unknown, an enqueue for capture. -/
theorem processUpdate_events_of_distinct (cfg : Config) (env : Env)
    (st : List (String × Session)) (u : Update) (uid : String) (s : Session)
    (hu : u.username = some uid)
    (hav : isAvailableID cfg.availableIds uid = true)
    (hs : lookupSession st uid = some s)
    (hne : s.lastUpdateID ≠ u.updateID)
    (hm : cfg.isInMaintenance = false) :
    (processUpdate cfg env st u true).events = dispatchEvents cfg env uid u := by
  simp only [processUpdate, hu, hav, hs, Bool.true_eq_false, if_false, if_neg hne,
    hm, dispatchEvents, Bool.false_eq_true]
  cases s.currentStatus
  split
  · rfl
  · rfl

/-- C6: the classifier agrees with first-prefix-match against the command
table in the priority order start, capture, status, help, with the unknown
fallback echoing non-empty text and replying generically to empty text; and
for every non-duplicate whitelisted update in status waiting the trace of
processUpdate is driven by exactly that classification. -/
theorem claim6_classifier_first_prefix_match_priority (env : Env) (txt : String) :
    classify env txt = firstMatchReply env txt
    ∧ (prefixMatch commandStart txt = false → prefixMatch commandCapture txt = false →
       prefixMatch commandStatus txt = false → prefixMatch commandHelp txt = false →
       txt ≠ "" →
       classify env txt = ("*" ++ txt ++ "*: " ++ messageUnknownCommand, "unknown"))
    ∧ classify env "" = (messageUnknownCommand, "unknown")
    ∧ (∀ (cfg : Config) (st : List (String × Session)) (u : Update) (uid : String)
        (s : Session),
        u.username = some uid →
        isAvailableID cfg.availableIds uid = true →
        lookupSession st uid = some s →
        s.lastUpdateID ≠ u.updateID →
        cfg.isInMaintenance = false →
        (processUpdate cfg env st u true).events = dispatchEvents cfg env uid u) := by
  refine ⟨?_, ?_, ?_, ?_⟩
  · by_cases h1 : prefixMatch commandStart txt = true <;>
    by_cases h2 : prefixMatch commandCapture txt = true <;>
    by_cases h3 : prefixMatch commandStatus txt = true <;>
    by_cases h4 : prefixMatch commandHelp txt = true <;>
    simp [classify, firstMatchReply, commandTable, List.find?, h1, h2, h3, h4]
  · intro h1 h2 h3 h4 hne
    have hlen : txt.length > 0 := by
      cases txt with
      | mk data =>
          cases data with
          | nil => exact absurd rfl hne
          | cons c cs => simp [String.length]
    simp [classify, h1, h2, h3, h4, hlen]
  · have e1 : prefixMatch commandStart "" = false := by decide
    have e2 : prefixMatch commandCapture "" = false := by decide
    have e3 : prefixMatch commandStatus "" = false := by decide
    have e4 : prefixMatch commandHelp "" = false := by decide
    simp [classify, e1, e2, e3, e4]
  · intro cfg st u uid s hu hav hs hne hm
    exact processUpdate_events_of_distinct cfg env st u uid s hu hav hs hne hm

/-- C6 witness: unknown non-empty text is echoed, and a /help update from
alice produces exactly the classified dispatch trace. -/
theorem claim6_witness :
    classify envTest "hello" = ("*" ++ "hello" ++ "*: " ++ messageUnknownCommand, "unknown")
    ∧ (processUpdate cfgAlice envTest (initSessions ["alice"]) (updAt 2 "/help") true).events
        = dispatchEvents cfgAlice envTest "alice" (updAt 2 "/help") :=
  ⟨(claim6_classifier_first_prefix_match_priority envTest "hello").2.1
      (by decide) (by decide) (by decide) (by decide) (by decide),
   (claim6_classifier_first_prefix_match_priority envTest "x").2.2.2 cfgAlice
      (initSessions ["alice"]) (updAt 2 "/help") "alice" (freshSession "alice")
      (by decide) (by decide) (by decide) (by decide) (by decide)⟩

/-- C3: on every exit path of processCaptureRequest (success, delivery
failure, process error, timeout, unkillable timeout), the trace starts by
acquiring the camera exclusivity lock, ends by releasing it, acquires and
releases it exactly once, and performs exactly one capture invocation,
strictly inside the locked region. -/
theorem claim3_camera_lock_wraps_every_capture (req : CaptureRequest)
    (o : CaptureOutcome) (db : Database) :
    (processCaptureRequest req o db).events.head? = some Event.camAcquire
    ∧ lastEvent (processCaptureRequest req o db).events = some Event.camRelease
    ∧ (processCaptureRequest req o db).events.countP isCamAcquire = 1
    ∧ (processCaptureRequest req o db).events.countP isCamRelease = 1
    ∧ (processCaptureRequest req o db).events.countP isCaptureInvoke = 1 := by
  obtain ⟨iter, po, spr, cap, sql⟩ := o
  cases po with
  | startError e =>
      cases spr <;> cases sql <;>
        simp [processCaptureRequest, captureStillImage, savePhoto, lastEvent,
          List.countP, List.countP.go, isCamAcquire, isCamRelease, isCaptureInvoke]
  | completed stdout ee =>
      cases ee <;> cases spr <;> cases sql <;>
        simp [processCaptureRequest, captureStillImage, savePhoto, lastEvent,
          List.countP, List.countP.go, isCamAcquire, isCamRelease, isCaptureInvoke]
  | timedOut killOk =>
      cases killOk <;> cases spr <;> cases sql <;>
        simp [processCaptureRequest, captureStillImage, savePhoto, lastEvent,
          List.countP, List.countP.go, isCamAcquire, isCamRelease, isCaptureInvoke]

/-- C5: captureStillImage returns the stdout bytes with no error when the
process completes within the deadline with a nil error; a timeout with a
successful kill yields the timeout error; a timeout whose kill fails yields
the distinct more severe error; a non-timeout process failure yields the
process error carrying the diagnostic; a start failure propagates its error;
and the deadline constant is 10 seconds. -/
theorem claim5_capture_result_and_timeout_paths (bin : String) (w h : Nat)
    (iter : List (String × Option String)) (stdout : List Nat) (e : String) :
    (captureStillImage bin w h iter (ProcOutcome.completed stdout none)).2
        = Except.ok stdout
    ∧ (captureStillImage bin w h iter (ProcOutcome.completed stdout (some e))).2
        = Except.error ("Error running " ++ bin ++ ": " ++ e)
    ∧ (captureStillImage bin w h iter (ProcOutcome.timedOut true)).2
        = Except.error ("Command timed out: " ++ bin)
    ∧ (captureStillImage bin w h iter (ProcOutcome.timedOut false)).2
        = Except.error ("Command timed out, but failed to kill process: " ++ bin)
    ∧ (captureStillImage bin w h iter (ProcOutcome.startError e)).2 = Except.error e
    ∧ libCameraStillRunTimeoutSeconds = 10 :=
  ⟨rfl, rfl, rfl, rfl, rfl, rfl⟩

/-- C9: a photo row is appended exactly when both the capture and the
delivery succeed (exactly one append attempt, no retry); on capture failure
or delivery failure the database is untouched; and a failed append leaves the
database unchanged, is logged, is never surfaced to the user via a message,
and does not change the successful result of the call. -/
theorem claim9_append_only_after_capture_and_delivery (req : CaptureRequest)
    (o : CaptureOutcome) (db : Database) :
    countSaves (processCaptureRequest req o db).events
      = (if captureOK o.procOutcome && sendPhotoOK o.sendPhotoResult then 1 else 0)
    ∧ (captureOK o.procOutcome = false ∨ sendPhotoOK o.sendPhotoResult = false →
        (processCaptureRequest req o db).db = db)
    ∧ (∀ stdout fileID caption,
        o = { iter := o.iter, procOutcome := ProcOutcome.completed stdout none,
              sendPhotoResult := SendPhotoResult.ok fileID, caption := caption,
              sqlOutcome := SqlOutcome.ok } →
        (processCaptureRequest req o db).db
          = (savePhoto db req.userName fileID caption SqlOutcome.ok).1)
    ∧ (captureOK o.procOutcome = true → sendPhotoOK o.sendPhotoResult = true →
        o.sqlOutcome ≠ SqlOutcome.ok →
        (processCaptureRequest req o db).db = db
        ∧ (processCaptureRequest req o db).result = true
        ∧ countSendMessages (processCaptureRequest req o db).events = 0
        ∧ countSaves (processCaptureRequest req o db).events = 1) := by
  obtain ⟨iter, po, spr, cap, sql⟩ := o
  refine ⟨?_, ?_, ?_, ?_⟩
  · cases po with
    | startError e =>
        cases spr <;>
          simp [processCaptureRequest, captureStillImage, savePhoto, captureOK,
            sendPhotoOK, countSaves, List.countP, List.countP.go]
    | completed stdout ee =>
        cases ee <;> cases spr <;> cases sql <;>
          simp [processCaptureRequest, captureStillImage, savePhoto, captureOK,
            sendPhotoOK, countSaves, List.countP, List.countP.go]
    | timedOut killOk =>
        cases killOk <;> cases spr <;>
          simp [processCaptureRequest, captureStillImage, savePhoto, captureOK,
            sendPhotoOK, countSaves, List.countP, List.countP.go]
  · intro hfail
    cases po with
    | startError e =>
        cases spr <;> simp [processCaptureRequest, captureStillImage]
    | completed stdout ee =>
        cases ee with
        | none =>
            cases spr with
            | ok fileID =>
                rcases hfail with hf | hf <;> simp [captureOK, sendPhotoOK] at hf
            | failed desc =>
                simp [processCaptureRequest, captureStillImage]
        | some e =>
            cases spr <;> simp [processCaptureRequest, captureStillImage]
    | timedOut killOk =>
        cases killOk <;> cases spr <;> simp [processCaptureRequest, captureStillImage]
  · intro stdout fileID caption heq
    cases heq
    simp [processCaptureRequest, captureStillImage]
  · intro hcap hsend hsql
    cases po with
    | startError e => simp [captureOK] at hcap
    | timedOut killOk => simp [captureOK] at hcap
    | completed stdout ee =>
        cases ee with
        | some e => simp [captureOK] at hcap
        | none =>
            cases spr with
            | failed desc => simp [sendPhotoOK] at hsend
            | ok fileID =>
                cases sql with
                | ok => exact absurd rfl hsql
                | prepareFail e =>
                    simp [processCaptureRequest, captureStillImage, savePhoto,
                      countSendMessages, countSaves, List.countP, List.countP.go]
                | execFail e =>
                    simp [processCaptureRequest, captureStillImage, savePhoto,
                      countSendMessages, countSaves, List.countP, List.countP.go]

/-- C9 witness: with capture and delivery succeeding and the insert failing,
the database is unchanged, the call still succeeds, nothing is sent to the
user, and exactly one append was attempted; with everything succeeding the
row is inserted. -/
theorem claim9_witness :
    (processCaptureRequest reqAlice
        { outcomeOk with sqlOutcome := SqlOutcome.execFail "disk full" } emptyDb).db
      = emptyDb
    ∧ (processCaptureRequest reqAlice
        { outcomeOk with sqlOutcome := SqlOutcome.execFail "disk full" } emptyDb).result
      = true
    ∧ countSendMessages (processCaptureRequest reqAlice
        { outcomeOk with sqlOutcome := SqlOutcome.execFail "disk full" } emptyDb).events
      = 0
    ∧ (processCaptureRequest reqAlice outcomeOk emptyDb).db
      = (savePhoto emptyDb "alice" "file9" "2024-01-01" SqlOutcome.ok).1 := by
  have hfail := (claim9_append_only_after_capture_and_delivery reqAlice
    { outcomeOk with sqlOutcome := SqlOutcome.execFail "disk full" } emptyDb).2.2.2
    (by decide) (by decide) (by decide)
  have hok := (claim9_append_only_after_capture_and_delivery reqAlice outcomeOk
    emptyDb).2.2.1 [1, 2] "file9" "2024-01-01" rfl
  exact ⟨hfail.1, hfail.2.1, hfail.2.2.1, hok⟩

/-- The args-building loop appends exactly the rendered entries, in the
order the loop receives them, after whatever is already accumulated. -/
theorem foldl_appendParamArg (iter : List (String × Option String))
    (acc : List String) :
    iter.foldl appendParamArg acc = acc ++ specRenderParams iter := by
  induction iter generalizing acc with
  | nil => simp [specRenderParams]
  | cons kv rest ih =>
      cases hv : kv.2 <;>
        simp [appendParamArg, specRenderParams, ih, hv, List.append_assoc]

/-- C4 (amended): the argument list is the fixed width, height,
output-encoding and output-to-stdout flags followed by each map entry
rendered as its flag name, optionally followed by its value, an absent (nil)
value rendering as a bare flag — in the order the Go map iteration happens to
deliver the entries, which is not guaranteed to be the caller-supplied
order. -/
theorem claim4_args_fixed_flags_then_rendered_params (width height : Nat)
    (iter : List (String × Option String)) :
    captureStillImageArgs width height iter =
      ["--width", toString width, "--height", toString height,
       "--encoding", "jpg", "--output", "-"] ++ specRenderParams iter :=
  foldl_appendParamArg iter _

/-- C4 counterexample: the camera-parameter flags do not in general appear in
caller-supplied order: for the caller-supplied entries -a then -b, the
iteration order -b then -a is a permutation of the same map entries, yet the
built argument list differs from the caller-order rendering. -/
theorem claim4_counterexample_iteration_order_not_callers :
    List.Perm [("-b", (none : Option String)), ("-a", none)] [("-a", none), ("-b", none)]
    ∧ captureStillImageArgs 1 1 [("-a", (none : Option String)), ("-b", none)]
        = ["--width", "1", "--height", "1", "--encoding", "jpg", "--output", "-",
           "-a", "-b"]
    ∧ captureStillImageArgs 1 1 [("-b", (none : Option String)), ("-a", none)]
        ≠ ["--width", "1", "--height", "1", "--encoding", "jpg", "--output", "-",
           "-a", "-b"] := by
  refine ⟨?_, by decide, by decide⟩
  decide

/-- Channel capacity is preserved and the buffer never exceeds it along any
sequence of sends and receives. -/
theorem runOps_length_le {α : Type} (c : Chan α) (ops : List (ChanOp α))
    (h : c.items.length ≤ c.capacity) :
    (runOps c ops).items.length ≤ c.capacity ∧ (runOps c ops).capacity = c.capacity := by
  induction ops generalizing c with
  | nil => exact ⟨h, rfl⟩
  | cons op rest ih =>
      have hstep : (applyOp c op).items.length ≤ c.capacity
          ∧ (applyOp c op).capacity = c.capacity := by
        cases op with
        | send x =>
            by_cases hlt : c.items.length < c.capacity
            · constructor
              · simp [applyOp, chanSend, hlt]
                omega
              · simp [applyOp, chanSend, hlt]
            · simpa [applyOp, chanSend, hlt] using h
        | recv =>
            cases hc : c.items with
            | nil => simp [applyOp, chanRecv, hc]
            | cons x rest2 =>
                constructor
                · simp [applyOp, chanRecv, hc]
                  have := h
                  rw [hc] at this
                  simp at this
                  omega
                · simp [applyOp, chanRecv, hc]
      have := ih (applyOp c op) (hstep.2 ▸ hstep.1)
      refine ⟨?_, ?_⟩
      · simpa [runOps, List.foldl_cons] using (hstep.2 ▸ this.1)
      · simpa [runOps, List.foldl_cons] using (this.2.trans hstep.2)

/-- C7: the capture queue has fixed capacity numQueue = 4, starts empty,
never holds more than its capacity along any sequence of sends and receives,
a send into a full queue blocks leaving the queue untouched (no drop, no
overwrite), and a successful send appends at the tail (FIFO, nothing
overwritten). -/
theorem claim7_capture_queue_bounded_fifo_blocking :
    numQueue = 4
    ∧ mkCaptureChannel.capacity = 4
    ∧ mkCaptureChannel.items = []
    ∧ (∀ ops : List (ChanOp CaptureRequest),
        (runOps mkCaptureChannel ops).items.length ≤ numQueue)
    ∧ (∀ (c : Chan CaptureRequest) (x : CaptureRequest),
        c.capacity ≤ c.items.length → chanSend c x = SendResult.blocked)
    ∧ (∀ (c c2 : Chan CaptureRequest) (x : CaptureRequest),
        chanSend c x = SendResult.sent c2 →
          c2.items = c.items ++ [x] ∧ c2.capacity = c.capacity) := by
  refine ⟨rfl, rfl, rfl, ?_, ?_, ?_⟩
  · intro ops
    exact (runOps_length_le mkCaptureChannel ops (by decide)).1
  · intro c x hfull
    simp [chanSend, Nat.not_lt.mpr hfull]
  · intro c c2 x hsent
    by_cases hlt : c.items.length < c.capacity
    · simp [chanSend, hlt] at hsent
      exact ⟨by rw [← hsent], by rw [← hsent]⟩
    · simp [chanSend, hlt] at hsent

/-- C7 witness: two sends from empty keep the queue within capacity, and a
send into a full queue of four requests blocks. -/
theorem claim7_witness :
    (runOps mkCaptureChannel [ChanOp.send reqAlice, ChanOp.send reqAlice]).items.length
      ≤ numQueue
    ∧ chanSend
        ({ capacity := numQueue,
           items := [reqAlice, reqAlice, reqAlice, reqAlice] } : Chan CaptureRequest)
        reqAlice = SendResult.blocked :=
  ⟨(claim7_capture_queue_bounded_fifo_blocking).2.2.2.1
      [ChanOp.send reqAlice, ChanOp.send reqAlice],
   (claim7_capture_queue_bounded_fifo_blocking).2.2.2.2.1
      { capacity := numQueue, items := [reqAlice, reqAlice, reqAlice, reqAlice] }
      reqAlice (by decide)⟩

/-- Membership through the descending insertion. -/
theorem mem_insertDescRow (r x : PhotoRow) (l : List PhotoRow) :
    x ∈ insertDescRow r l ↔ x = r ∨ x ∈ l := by
  induction l with
  | nil => simp [insertDescRow]
  | cons s rest ih =>
      by_cases h : s.id ≤ r.id
      · simp [insertDescRow, h]
      · simp [insertDescRow, h, ih]
        tauto

/-- Membership through the descending sort. -/
theorem mem_sortByIdDesc (x : PhotoRow) (l : List PhotoRow) :
    x ∈ sortByIdDesc l ↔ x ∈ l := by
  induction l with
  | nil => simp [sortByIdDesc]
  | cons r rest ih => simp [sortByIdDesc, mem_insertDescRow, ih]

/-- The descending insertion permutes consing. -/
theorem perm_insertDescRow (r : PhotoRow) (l : List PhotoRow) :
    List.Perm (insertDescRow r l) (r :: l) := by
  induction l with
  | nil => simp [insertDescRow]
  | cons s rest ih =>
      by_cases h : s.id ≤ r.id
      · simp [insertDescRow, h]
      · simp only [insertDescRow, if_neg h]
        exact (ih.cons s).trans (List.Perm.swap r s rest)

/-- The descending sort is a permutation. -/
theorem perm_sortByIdDesc (l : List PhotoRow) : List.Perm (sortByIdDesc l) l := by
  induction l with
  | nil => simp [sortByIdDesc]
  | cons r rest ih =>
      exact (perm_insertDescRow r (sortByIdDesc rest)).trans (ih.cons r)

/-- The descending insertion preserves non-strict descending order. -/
theorem pairwise_ge_insertDescRow (r : PhotoRow) (l : List PhotoRow)
    (h : l.Pairwise (fun a b => b.id ≤ a.id)) :
    (insertDescRow r l).Pairwise (fun a b => b.id ≤ a.id) := by
  induction l with
  | nil => simp [insertDescRow]
  | cons s rest ih =>
      rcases List.pairwise_cons.mp h with ⟨hs, hrest⟩
      by_cases hle : s.id ≤ r.id
      · simp only [insertDescRow, if_pos hle]
        refine List.pairwise_cons.mpr ⟨?_, h⟩
        intro y hy
        rcases List.mem_cons.mp hy with rfl | hy
        · exact hle
        · exact le_trans (hs y hy) hle
      · simp only [insertDescRow, if_neg hle]
        refine List.pairwise_cons.mpr ⟨?_, ih hrest⟩
        intro y hy
        rcases (mem_insertDescRow r y rest).mp hy with rfl | hy
        · exact le_of_not_le hle
        · exact hs y hy

/-- The sorted rows are in non-strict descending id order. -/
theorem pairwise_ge_sortByIdDesc (l : List PhotoRow) :
    (sortByIdDesc l).Pairwise (fun a b => b.id ≤ a.id) := by
  induction l with
  | nil => simp [sortByIdDesc]
  | cons r rest ih => exact pairwise_ge_insertDescRow r _ ih

/-- savePhoto preserves the database invariant on every outcome. -/
theorem savePhoto_dbInv (d : Database) (userName fileID caption : String)
    (outcome : SqlOutcome) (h : dbInv d) :
    dbInv (savePhoto d userName fileID caption outcome).1 := by
  obtain ⟨hnd, hlt⟩ := h
  cases outcome with
  | ok =>
      constructor
      · simp only [savePhoto, List.map_append, List.map_cons, List.map_nil]
        refine List.Nodup.append hnd (List.nodup_singleton _) ?_
        intro a ha hb
        rcases List.mem_singleton.mp hb with rfl
        rcases List.mem_map.mp ha with ⟨r, hr, hid⟩
        exact absurd hid (Nat.ne_of_lt (hlt r hr))
      · intro r hr
        simp only [savePhoto, List.mem_append, List.mem_singleton] at hr
        rcases hr with hr | rfl
        · exact Nat.lt_succ_of_lt (hlt r hr)
        · exact Nat.lt_succ_self _
  | prepareFail e => exact ⟨hnd, hlt⟩
  | execFail e => exact ⟨hnd, hlt⟩

/-- C8: getPhotos returns at most latestN rows, every returned row belongs to
the requested user, and when the table's ids are distinct (which savePhoto
preserves, assigning a fresh id to each inserted row so that id order is
insertion order) the returned rows are in strictly descending id order. -/
theorem claim8_getPhotos_bounded_owned_descending (d : Database) (u : String)
    (n : Nat) :
    (getPhotos d u n).length ≤ n
    ∧ (∀ r ∈ getPhotos d u n, r.userName = u)
    ∧ ((d.rows.map PhotoRow.id).Nodup →
        (getPhotos d u n).Pairwise (fun a b => b.id < a.id))
    ∧ (∀ (userName fileID caption : String) (outcome : SqlOutcome), dbInv d →
        dbInv (savePhoto d userName fileID caption outcome).1)
    ∧ (∀ userName fileID caption : String,
        (savePhoto d userName fileID caption SqlOutcome.ok).1.rows =
          d.rows ++ [(⟨d.nextID, userName, fileID, caption⟩ : PhotoRow)]) := by
  refine ⟨?_, ?_, ?_, ?_, ?_⟩
  · exact List.length_take_le n _
  · intro r hr
    have hmem : r ∈ d.rows.filter (fun row => row.userName == u) :=
      (mem_sortByIdDesc r _).mp (List.mem_of_mem_take hr)
    have := List.of_mem_filter hmem
    simpa using this
  · intro hnd
    have hsubl : List.Sublist (d.rows.filter (fun row => row.userName == u)) d.rows :=
      List.filter_sublist _
    have hndf : ((d.rows.filter (fun row => row.userName == u)).map PhotoRow.id).Nodup :=
      (hsubl.map PhotoRow.id).nodup hnd
    have hperm : List.Perm
        ((sortByIdDesc (d.rows.filter (fun row => row.userName == u))).map PhotoRow.id)
        ((d.rows.filter (fun row => row.userName == u)).map PhotoRow.id) :=
      (perm_sortByIdDesc _).map PhotoRow.id
    have hnds : ((sortByIdDesc (d.rows.filter (fun row => row.userName == u))).map
        PhotoRow.id).Nodup := hperm.nodup_iff.mpr hndf
    have hne : (sortByIdDesc (d.rows.filter (fun row => row.userName == u))).Pairwise
        (fun a b => a.id ≠ b.id) := List.pairwise_map.mp hnds
    have hge := pairwise_ge_sortByIdDesc (d.rows.filter (fun row => row.userName == u))
    have hlt : (sortByIdDesc (d.rows.filter (fun row => row.userName == u))).Pairwise
        (fun a b => b.id < a.id) :=
      (hge.and hne).imp (fun hab => lt_of_le_of_ne hab.1 (Ne.symm hab.2))
    exact hlt.sublist (List.take_sublist n _)
  · intro userName fileID caption outcome h
    exact savePhoto_dbInv d userName fileID caption outcome h
  · intro userName fileID caption
    simp [savePhoto]

/-- C8 witness: on a two-row table for alice, asking for one latest photo
returns at most one row, the most recent row belongs to alice, the result is
strictly descending, and the invariant holds after another insert. -/
theorem claim8_witness :
    (getPhotos dbSample "alice" 1).length ≤ 1
    ∧ ((⟨1, "alice", "f2", "c2"⟩ : PhotoRow)).userName = "alice"
    ∧ (getPhotos dbSample "alice" 2).Pairwise (fun a b => b.id < a.id)
    ∧ dbInv (savePhoto dbSample "bob" "f3" "c3" SqlOutcome.ok).1 := by
  have h := claim8_getPhotos_bounded_owned_descending dbSample "alice" 2
  refine ⟨(claim8_getPhotos_bounded_owned_descending dbSample "alice" 1).1, ?_, ?_, ?_⟩
  · exact h.2.1 (⟨1, "alice", "f2", "c2"⟩ : PhotoRow) (by decide)
  · exact h.2.2.1 (by decide)
  · refine h.2.2.2.1 "bob" "f3" "c3" SqlOutcome.ok ⟨by decide, ?_⟩
    intro r hr
    fin_cases hr <;> decide

end RPiCam
